import Mathlib

/-!
Verification development for the fiber cache middleware
(src/middleware/cache/cache.go, function New).

Byte sequences ([]byte) are modelled as String, machine integers
(uint64) as Nat with explicit reduction modulo 2^64, time.Duration
values by their whole-seconds value as Int, and Go errors as
Option String.  The handler returned by New is embedded as a pure
step function from (manager state, clock value, request, response) to
a result record; a ghost trace of storage operations and a ghost flag
recording whether the downstream stage (c.Next) ran are carried in
the result so that theorems can speak about them.
-/

/-- uint64 width. -/
def W64 : Nat := 2 ^ 64

/-- Go conversion of an integer-valued quantity to uint64
(two-complement wrap, the amd64 behaviour of uint64(x)). -/
def toUint64 (i : Int) : Nat := (i.emod (W64 : Int)).toNat

/-- uint64 subtraction a - b with wraparound. -/
def u64sub (a b : Nat) : Nat := (a % W64 + W64 - b % W64) % W64

/-- Association-list update: replace the first binding of k, else append. -/
def setA {α : Type} (l : List (String × α)) (k : String) (v : α) :
    List (String × α) :=
  match l with
  | [] => [(k, v)]
  | (k0, v0) :: t => if k0 = k then (k, v) :: t else (k0, v0) :: setA t k v

/-- Association-list lookup. -/
def getA {α : Type} (l : List (String × α)) (k : String) : Option α :=
  match l with
  | [] => none
  | (k0, v0) :: t => if k0 = k then some v0 else getA t k

/-- Association-list removal of every binding of k. -/
def delA {α : Type} (l : List (String × α)) (k : String) : List (String × α) :=
  match l with
  | [] => []
  | (k0, v0) :: t => if k0 = k then delA t k else (k0, v0) :: delA t k

/-- The cached unit (type entry of the middleware): body, content type,
content encoding, status code, optional header snapshot, absolute
expiration timestamp (0 = absent). -/
structure Entry where
  body : String := ""
  ctype : String := ""
  cencoding : String := ""
  status : Nat := 0
  headers : Option (List (String × String)) := none
  exp : Nat := 0
deriving DecidableEq, Repr

/-- The response half of the fiber request context: status code, body
and headers.  Content-Type and Content-Encoding are ordinary headers
here, matching fasthttp where VisitAll also visits them. -/
structure Resp where
  status : Nat := 200
  body : String := ""
  headers : List (String × String) := []
deriving DecidableEq, Repr

/-- c.Set / Header.SetBytesV: set a response header. -/
def Resp.setHeader (r : Resp) (k v : String) : Resp :=
  { r with headers := setA r.headers k v }

/-- Read a response header. -/
def Resp.getHeader (r : Resp) (k : String) : Option String :=
  getA r.headers k

/-- Header.ContentType(): the Content-Type header bytes. -/
def Resp.contentType (r : Resp) : String :=
  (r.getHeader "Content-Type").getD ""

/-- Header.Peek(fiber.HeaderContentEncoding). -/
def Resp.contentEncoding (r : Resp) : String :=
  (r.getHeader "Content-Encoding").getD ""

/-- The request half of the context: only the method and an abstract
identity consumed by the key generator are relevant. -/
structure Req where
  method : String := "GET"
  path : String := "/"

/-- Modelled from the spec: the Manager storage abstraction
(manager.go is not part of the sources).  entries holds structured
Entry metadata, raws holds raw byte blobs (the split body storage of
external-storage mode); absence of an entry is represented by the
zero Entry with exp = 0. -/
structure Manager where
  entries : List (String × Entry) := []
  raws : List (String × String) := []

/-- Modelled from the spec: manager.get returns the entry registered
under key, or a freshly zeroed pooled Entry if absent. -/
def Manager.get (m : Manager) (key : String) : Entry :=
  (getA m.entries key).getD {}

/-- Modelled from the spec: manager.getRaw fetches a raw byte blob. -/
def Manager.getRaw (m : Manager) (key : String) : String :=
  (getA m.raws key).getD ""

/-- Modelled from the spec: manager.set persists entry metadata under
key with a time-to-live.  The ttl governs eviction inside the storage
backend, which is outside this model; the ghost operation trace
records the ttl argument the handler passes. -/
def Manager.set (m : Manager) (key : String) (e : Entry) (_ttl : Int) :
    Manager :=
  { m with entries := setA m.entries key e }

/-- Modelled from the spec: manager.setRaw persists raw bytes under
key with a ttl. -/
def Manager.setRaw (m : Manager) (key : String) (b : String) (_ttl : Int) :
    Manager :=
  { m with raws := setA m.raws key b }

/-- Modelled from the spec: manager.delete removes the value stored
under key. -/
def Manager.delete (m : Manager) (key : String) : Manager :=
  { entries := delA m.entries key, raws := delA m.raws key }

/-- Ghost record of one storage interaction performed by the handler. -/
inductive StoreOp where
  | set (key : String) (e : Entry) (ttl : Int)
  | setRaw (key : String) (b : String) (ttl : Int)
  | delete (key : String)
  | release (e : Entry)
deriving DecidableEq, Repr

/-- The middleware Config, with time.Duration fields replaced by their
whole-seconds value: Expiration is int(cfg.Expiration.Seconds()), and
ExpirationGenerator returns the whole-seconds value of the generated
duration.  The generator and the exclusion predicate cfg.Next read the
request context after downstream ran, so they are modelled as
functions of the produced response. -/
structure Config where
  Expiration : Int := 60
  CacheHeader : String := "X-Cache"
  CacheControl : Bool := false
  StoreResponseHeaders : Bool := false
  KeyGenerator : Req → String := fun r => r.path
  ExpirationGenerator : Option (Resp → Int) := none
  Next : Option (Resp → Bool) := none
  hasStorage : Bool := false

/-- cache status values. -/
def cacheUnreachable : String := "unreachable"

/-- cache status: cache served. -/
def cacheHit : String := "hit"

/-- cache status: no cache record. -/
def cacheMiss : String := "miss"

/-- The fixed ignore set of response headers never snapshotted. -/
def ignoreHeaders : List String :=
  ["Connection", "Keep-Alive", "Proxy-Authenticate", "Proxy-Authorization",
   "TE", "Trailers", "Transfer-Encoding", "Upgrade",
   "Content-Type", "Content-Encoding"]

/-- Result of one handler invocation: final manager state, final
response, returned error, ghost storage-operation trace, and a ghost
flag recording whether c.Next was invoked. -/
structure HandlerResult where
  mgr : Manager
  resp : Resp
  err : Option String
  ops : List StoreOp
  nextCalled : Bool

/-- The key derived for a request: KeyGenerator(c) + "_" + method. -/
def keyOf (cfg : Config) (req : Req) : String :=
  cfg.KeyGenerator req ++ "_" ++ req.method

/-- Lines 149-168 of cache.go: copy body, status, content type and
content encoding of the produced response into the entry, and when
StoreResponseHeaders is set snapshot every response header outside
ignoreHeaders. -/
def populateEntry (cfg : Config) (resp : Resp) (e : Entry) : Entry :=
  let e := { e with body := resp.body, status := resp.status, ctype := resp.contentType, cencoding := resp.contentEncoding }
  if cfg.StoreResponseHeaders then
    { e with headers := some (resp.headers.filter
        (fun kv => ¬ ignoreHeaders.contains kv.1)) }
  else e

/-- Lines 170-175 of cache.go: the expiration seconds value, as
uint64: the dynamic generator result when configured, else the
configured default. -/
def expirationSeconds (cfg : Config) (resp : Resp) : Nat :=
  match cfg.ExpirationGenerator with
  | some g => toUint64 (g resp)
  | none => toUint64 cfg.Expiration

/-- Lines 134-193 of cache.go: the path taken once the lookup decided
a miss (entry absent or just deleted as stale).  Invokes downstream,
propagates its error, applies the exclusion predicate, populates and
stores the entry, and tags the response. -/
def missPopulate (cfg : Config) (nxt : Resp → Resp × Option String)
    (mgr : Manager) (ts : Nat) (key : String) (e : Entry) (resp : Resp)
    (ops : List StoreOp) : HandlerResult :=
  let step := nxt resp
  match step.2 with
  | some msg => ⟨mgr, step.1, some msg, ops, true⟩
  | none =>
    let resp := step.1
    if (match cfg.Next with | some p => p resp | none => false) then
      ⟨mgr, resp.setHeader cfg.CacheHeader cacheUnreachable, none, ops, true⟩
    else
      let e := populateEntry cfg resp e
      let e := { e with exp := (ts + expirationSeconds cfg resp) % W64 }
      if cfg.hasStorage then
        let mgr := mgr.setRaw (key ++ "_body") e.body cfg.Expiration
        let e2 := { e with body := "" }
        let mgr := mgr.set key e2 cfg.Expiration
        ⟨mgr, resp.setHeader cfg.CacheHeader cacheMiss, none,
          ops ++ [StoreOp.setRaw (key ++ "_body") e.body cfg.Expiration,
                  StoreOp.set key e2 cfg.Expiration, StoreOp.release e2],
          true⟩
      else
        ⟨mgr.set key e cfg.Expiration,
          resp.setHeader cfg.CacheHeader cacheMiss, none,
          ops ++ [StoreOp.set key e cfg.Expiration], true⟩

/-- Lines 99-128 of cache.go: serve a hit.  With external storage the
body is fetched from the raw store; status, content type, content
encoding, preserved headers, the optional Cache-Control header and the
cache-status header are written onto the response. -/
def serveHit (cfg : Config) (mgr : Manager) (ts : Nat) (key : String)
    (e : Entry) (resp : Resp) : Resp :=
  let e := if cfg.hasStorage then
    { e with body := mgr.getRaw (key ++ "_body") } else e
  let resp := { resp with body := e.body, status := e.status }
  let resp := resp.setHeader "Content-Type" e.ctype
  let resp := if e.cencoding ≠ "" then
    resp.setHeader "Content-Encoding" e.cencoding else resp
  let resp := match e.headers with
    | some hs => hs.foldl
        (fun (r : Resp) (kv : String × String) => r.setHeader kv.1 kv.2) resp
    | none => resp
  let resp := if cfg.CacheControl then
    resp.setHeader "Cache-Control"
      ("public, max-age=" ++ toString (u64sub e.exp ts)) else resp
  resp.setHeader cfg.CacheHeader cacheHit

/-- Lines 72-194 of cache.go: the handler returned by New (in the
non-disabled case).  ts is the value of the atomic clock load; nxt is
the downstream stage, returning the mutated response and an optional
error. -/
def cacheHandler (cfg : Config) (nxt : Resp → Resp × Option String)
    (mgr : Manager) (ts : Nat) (req : Req) (resp : Resp) : HandlerResult :=
  if req.method ≠ "GET" ∧ req.method ≠ "HEAD" then
    let resp := resp.setHeader cfg.CacheHeader cacheUnreachable
    let step := nxt resp
    ⟨mgr, step.1, step.2, [], true⟩
  else
    let key := keyOf cfg req
    let e := mgr.get key
    if e.exp ≠ 0 ∧ ts ≥ e.exp then
      let mgr := mgr.delete key
      if cfg.hasStorage then
        missPopulate cfg nxt (mgr.delete (key ++ "_body")) ts key e resp
          [StoreOp.delete key, StoreOp.delete (key ++ "_body")]
      else
        missPopulate cfg nxt mgr ts key e resp [StoreOp.delete key]
    else if e.exp ≠ 0 then
      ⟨mgr, serveHit cfg mgr ts key e resp, none, [], false⟩
    else
      missPopulate cfg nxt mgr ts key e resp []

/-- Lines 44-53 plus 72: New(config).  When the configured expiration
has a negative whole-seconds value the returned handler is a pure
passthrough (return c.Next()); otherwise it is the caching handler. -/
def runNew (cfg : Config) (nxt : Resp → Resp × Option String)
    (mgr : Manager) (ts : Nat) (req : Req) (resp : Resp) : HandlerResult :=
  if cfg.Expiration < 0 then
    let step := nxt resp
    ⟨mgr, step.1, step.2, [], true⟩
  else
    cacheHandler cfg nxt mgr ts req resp

/-! ### Association-list and Resp lemmas -/

theorem getA_setA_self {α : Type} (l : List (String × α)) (k : String)
    (v : α) : getA (setA l k v) k = some v := by
  induction l with
  | nil => simp [setA, getA]
  | cons hd t ih =>
    obtain ⟨k0, v0⟩ := hd
    by_cases h : k0 = k
    · simp [setA, h, getA]
    · simp [setA, h, getA, ih]

theorem getA_setA_ne {α : Type} (l : List (String × α)) (k k2 : String)
    (v : α) (h : k2 ≠ k) : getA (setA l k v) k2 = getA l k2 := by
  have hk : ¬ k = k2 := fun hh => h hh.symm
  induction l with
  | nil => simp [setA, getA, hk]
  | cons hd t ih =>
    obtain ⟨k0, v0⟩ := hd
    by_cases h0 : k0 = k
    · subst h0
      simp [setA, getA, hk]
    · simp [setA, getA, h0, ih]

theorem getA_delA_self {α : Type} (l : List (String × α)) (k : String) :
    getA (delA l k) k = none := by
  induction l with
  | nil => simp [delA, getA]
  | cons hd t ih =>
    obtain ⟨k0, v0⟩ := hd
    by_cases h : k0 = k <;> simp [delA, getA, h, ih]

theorem getA_delA_ne {α : Type} (l : List (String × α)) (k k2 : String)
    (h : k2 ≠ k) : getA (delA l k) k2 = getA l k2 := by
  have hk : ¬ k = k2 := fun hh => h hh.symm
  induction l with
  | nil => simp [delA, getA]
  | cons hd t ih =>
    obtain ⟨k0, v0⟩ := hd
    by_cases h0 : k0 = k
    · subst h0
      simp [delA, getA, hk, ih]
    · simp [delA, getA, h0, ih]

theorem Resp.getHeader_setHeader_self (r : Resp) (k v : String) :
    (r.setHeader k v).getHeader k = some v := by
  simp [Resp.setHeader, Resp.getHeader, getA_setA_self]

theorem Resp.getHeader_setHeader_ne (r : Resp) (k k2 v : String)
    (h : k2 ≠ k) : (r.setHeader k v).getHeader k2 = r.getHeader k2 := by
  simp [Resp.setHeader, Resp.getHeader, getA_setA_ne _ _ _ _ h]

theorem Resp.body_setHeader (r : Resp) (k v : String) :
    (r.setHeader k v).body = r.body := rfl

theorem Resp.status_setHeader (r : Resp) (k v : String) :
    (r.setHeader k v).status = r.status := rfl

theorem Resp.contentType_setHeader (r : Resp) (k v : String)
    (h : k ≠ "Content-Type") :
    (r.setHeader k v).contentType = r.contentType := by
  simp [Resp.contentType, Resp.getHeader_setHeader_ne _ _ _ _ (Ne.symm h)]

/-- Folding header replay does not touch body or status. -/
theorem foldl_setHeader_body (hs : List (String × String)) (r : Resp) :
    (hs.foldl (fun (r : Resp) (kv : String × String) =>
      r.setHeader kv.1 kv.2) r).body = r.body := by
  induction hs generalizing r with
  | nil => rfl
  | cons hd t ih => simp [List.foldl, ih, Resp.body_setHeader]

theorem foldl_setHeader_status (hs : List (String × String)) (r : Resp) :
    (hs.foldl (fun (r : Resp) (kv : String × String) =>
      r.setHeader kv.1 kv.2) r).status = r.status := by
  induction hs generalizing r with
  | nil => rfl
  | cons hd t ih => simp [List.foldl, ih, Resp.status_setHeader]

/-- Folding header replay leaves headers whose name is not in the
replayed list unchanged. -/
theorem foldl_setHeader_not_mem (hs : List (String × String)) (r : Resp)
    (k : String) (h : ∀ kv ∈ hs, kv.1 ≠ k) :
    (hs.foldl (fun (r : Resp) (kv : String × String) =>
      r.setHeader kv.1 kv.2) r).getHeader k = r.getHeader k := by
  induction hs generalizing r with
  | nil => rfl
  | cons hd t ih =>
    simp only [List.foldl]
    rw [ih _ (fun kv hkv => h kv (List.mem_cons_of_mem _ hkv)),
      Resp.getHeader_setHeader_ne]
    exact Ne.symm (h hd (List.mem_cons_self _ _))

/-! ### Manager lemmas -/

theorem Manager.get_set_self (m : Manager) (k : String) (e : Entry)
    (t : Int) : (m.set k e t).get k = e := by
  simp [Manager.set, Manager.get, getA_setA_self]

theorem Manager.getRaw_set (m : Manager) (k k2 : String) (e : Entry)
    (t : Int) : (m.set k e t).getRaw k2 = m.getRaw k2 := rfl

theorem Manager.getRaw_setRaw_self (m : Manager) (k : String) (b : String)
    (t : Int) : (m.setRaw k b t).getRaw k = b := by
  simp [Manager.setRaw, Manager.getRaw, getA_setA_self]

theorem Manager.get_setRaw (m : Manager) (k k2 : String) (b : String)
    (t : Int) : (m.setRaw k b t).get k2 = m.get k2 := rfl

theorem Manager.get_delete_self (m : Manager) (k : String) :
    (m.delete k).get k = {} := by
  simp [Manager.delete, Manager.get, getA_delA_self]

theorem Manager.get_delete_ne (m : Manager) (k k2 : String) (h : k2 ≠ k) :
    (m.delete k).get k2 = m.get k2 := by
  simp [Manager.delete, Manager.get, getA_delA_ne _ _ _ h]

/-! ### serveHit observation lemmas -/

theorem serveHit_cacheHeader (cfg : Config) (mgr : Manager) (ts : Nat)
    (key : String) (e : Entry) (resp : Resp) :
    (serveHit cfg mgr ts key e resp).getHeader cfg.CacheHeader =
      some cacheHit := by
  simp only [serveHit]
  exact Resp.getHeader_setHeader_self _ _ _

theorem serveHit_status (cfg : Config) (mgr : Manager) (ts : Nat)
    (key : String) (e : Entry) (resp : Resp) :
    (serveHit cfg mgr ts key e resp).status = e.status := by
  cases hh : e.headers <;>
    by_cases hs : cfg.hasStorage <;>
      by_cases hcc : cfg.CacheControl <;>
        by_cases hce : e.cencoding = "" <;>
          simp [serveHit, hh, hs, hcc, hce, Resp.status_setHeader,
            foldl_setHeader_status]

theorem serveHit_body_mem (cfg : Config) (mgr : Manager) (ts : Nat)
    (key : String) (e : Entry) (resp : Resp)
    (hs : cfg.hasStorage = false) :
    (serveHit cfg mgr ts key e resp).body = e.body := by
  cases hh : e.headers <;>
    by_cases hcc : cfg.CacheControl <;>
      by_cases hce : e.cencoding = "" <;>
        simp [serveHit, hh, hs, hcc, hce, Resp.body_setHeader,
          foldl_setHeader_body]

theorem serveHit_body_ext (cfg : Config) (mgr : Manager) (ts : Nat)
    (key : String) (e : Entry) (resp : Resp)
    (hs : cfg.hasStorage = true) :
    (serveHit cfg mgr ts key e resp).body =
      mgr.getRaw (key ++ "_body") := by
  cases hh : e.headers <;>
    by_cases hcc : cfg.CacheControl <;>
      by_cases hce : e.cencoding = "" <;>
        simp [serveHit, hh, hs, hcc, hce, Resp.body_setHeader,
          foldl_setHeader_body]

theorem serveHit_contentType (cfg : Config) (mgr : Manager) (ts : Nat)
    (key : String) (e : Entry) (resp : Resp)
    (hch : cfg.CacheHeader ≠ "Content-Type")
    (hhd : ∀ hs, e.headers = some hs → ∀ kv ∈ hs, kv.1 ≠ "Content-Type") :
    (serveHit cfg mgr ts key e resp).contentType = e.ctype := by
  have hct : ∀ r : Resp, (r.setHeader "Content-Type" e.ctype).contentType
      = e.ctype := by
    intro r
    simp [Resp.contentType, Resp.getHeader_setHeader_self]
  cases hh : e.headers with
  | none =>
    by_cases hs : cfg.hasStorage <;>
      by_cases hcc : cfg.CacheControl <;>
        by_cases hce : e.cencoding = "" <;>
          simp [serveHit, hh, hs, hcc, hce, hct,
            Resp.contentType_setHeader, hch]
  | some hds =>
    have hfold : ∀ r : Resp,
        (hds.foldl (fun (r : Resp) (kv : String × String) =>
          r.setHeader kv.1 kv.2) r).contentType = r.contentType := by
      intro r
      simp only [Resp.contentType]
      rw [foldl_setHeader_not_mem]
      exact fun kv hkv => hhd hds hh kv hkv
    by_cases hs : cfg.hasStorage <;>
      by_cases hcc : cfg.CacheControl <;>
        by_cases hce : e.cencoding = "" <;>
          simp [serveHit, hh, hs, hcc, hce, hct, hfold,
            Resp.contentType_setHeader, hch]

theorem serveHit_cacheControl (cfg : Config) (mgr : Manager) (ts : Nat)
    (key : String) (e : Entry) (resp : Resp)
    (hcc : cfg.CacheControl = true)
    (hch : cfg.CacheHeader ≠ "Cache-Control") :
    (serveHit cfg mgr ts key e resp).getHeader "Cache-Control" =
      some ("public, max-age=" ++ toString (u64sub e.exp ts)) := by
  have hne : ("Cache-Control" : String) ≠ cfg.CacheHeader := Ne.symm hch
  cases hh : e.headers <;>
    by_cases hs : cfg.hasStorage <;>
      by_cases hce : e.cencoding = "" <;>
        simp [serveHit, hh, hs, hcc, hce,
          Resp.getHeader_setHeader_ne _ _ _ _ hne,
          Resp.getHeader_setHeader_self]

/-! ### Arithmetic helpers -/

theorem u64sub_exact (a b : Nat) (hb : b ≤ a) (ha : a < W64) :
    u64sub a b = a - b := by
  have hb2 : b < W64 := lt_of_le_of_lt hb ha
  unfold u64sub
  rw [Nat.mod_eq_of_lt ha, Nat.mod_eq_of_lt hb2,
    show a + W64 - b = (a - b) + W64 by omega, Nat.add_mod_right,
    Nat.mod_eq_of_lt (by omega)]

theorem ne_append_body (k : String) : k ≠ k ++ "_body" := by
  intro h
  have := congrArg String.length h
  rw [String.length_append] at this
  simp at this
  exact absurd this (by decide)

/-! ### Path characterization lemmas for the handler -/

/-- An ineligible method is tagged unreachable and passed through. -/
theorem cacheHandler_ineligible (cfg : Config)
    (nxt : Resp → Resp × Option String) (mgr : Manager) (ts : Nat)
    (req : Req) (resp : Resp)
    (h : req.method ≠ "GET" ∧ req.method ≠ "HEAD") :
    cacheHandler cfg nxt mgr ts req resp =
      ⟨mgr, (nxt (resp.setHeader cfg.CacheHeader cacheUnreachable)).1,
        (nxt (resp.setHeader cfg.CacheHeader cacheUnreachable)).2,
        [], true⟩ := by
  simp [cacheHandler, h]

/-- An eligible request with no registered entry goes to the miss path
with no delete. -/
theorem cacheHandler_absent (cfg : Config)
    (nxt : Resp → Resp × Option String) (mgr : Manager) (ts : Nat)
    (req : Req) (resp : Resp)
    (h1 : req.method = "GET" ∨ req.method = "HEAD")
    (h2 : (mgr.get (keyOf cfg req)).exp = 0) :
    cacheHandler cfg nxt mgr ts req resp =
      missPopulate cfg nxt mgr ts (keyOf cfg req)
        (mgr.get (keyOf cfg req)) resp [] := by
  have h : ¬ (req.method ≠ "GET" ∧ req.method ≠ "HEAD") := by
    rcases h1 with h1 | h1 <;> simp [h1]
  simp [cacheHandler, h, h2]

/-- An eligible request with a valid unexpired entry is served as a
hit without touching storage or downstream. -/
theorem cacheHandler_hit (cfg : Config)
    (nxt : Resp → Resp × Option String) (mgr : Manager) (ts : Nat)
    (req : Req) (resp : Resp)
    (h1 : req.method = "GET" ∨ req.method = "HEAD")
    (h2 : (mgr.get (keyOf cfg req)).exp ≠ 0)
    (h3 : ts < (mgr.get (keyOf cfg req)).exp) :
    cacheHandler cfg nxt mgr ts req resp =
      ⟨mgr, serveHit cfg mgr ts (keyOf cfg req)
        (mgr.get (keyOf cfg req)) resp, none, [], false⟩ := by
  have h : ¬ (req.method ≠ "GET" ∧ req.method ≠ "HEAD") := by
    rcases h1 with h1 | h1 <;> simp [h1]
  have h5 : ¬ (mgr.get (keyOf cfg req)).exp ≤ ts := not_le.mpr h3
  simp [cacheHandler, h, h2, h5]

/-- An eligible request with a stale entry deletes it (both keys in
external-storage mode) and goes to the miss path. -/
theorem cacheHandler_expired (cfg : Config)
    (nxt : Resp → Resp × Option String) (mgr : Manager) (ts : Nat)
    (req : Req) (resp : Resp)
    (h1 : req.method = "GET" ∨ req.method = "HEAD")
    (h2 : (mgr.get (keyOf cfg req)).exp ≠ 0)
    (h3 : ts ≥ (mgr.get (keyOf cfg req)).exp) :
    cacheHandler cfg nxt mgr ts req resp =
      (if cfg.hasStorage then
        missPopulate cfg nxt ((mgr.delete (keyOf cfg req)).delete
            (keyOf cfg req ++ "_body")) ts (keyOf cfg req)
          (mgr.get (keyOf cfg req)) resp
          [StoreOp.delete (keyOf cfg req),
           StoreOp.delete (keyOf cfg req ++ "_body")]
      else
        missPopulate cfg nxt (mgr.delete (keyOf cfg req)) ts
          (keyOf cfg req) (mgr.get (keyOf cfg req)) resp
          [StoreOp.delete (keyOf cfg req)]) := by
  have h : ¬ (req.method ≠ "GET" ∧ req.method ≠ "HEAD") := by
    rcases h1 with h1 | h1 <;> simp [h1]
  simp [cacheHandler, h, h2, h3]

/-- The entry committed by the store path: the populated entry with
exp = (ts + expiration seconds) mod 2^64. -/
def storedEntry (cfg : Config) (ts : Nat) (resp : Resp) (e : Entry) :
    Entry :=
  { populateEntry cfg resp e with
      exp := (ts + expirationSeconds cfg resp) % W64 }

/-- Whether a ghost storage operation writes (set, setRaw or release,
as opposed to delete). -/
def StoreOp.isWrite : StoreOp → Bool
  | .delete _ => false
  | _ => true

/-- Every miss path invokes the downstream stage. -/
theorem missPopulate_nextCalled (cfg : Config)
    (nxt : Resp → Resp × Option String) (mgr : Manager) (ts : Nat)
    (key : String) (e : Entry) (resp : Resp) (ops : List StoreOp) :
    (missPopulate cfg nxt mgr ts key e resp ops).nextCalled = true := by
  rcases hstep : (nxt resp).2 with _ | msg
  · simp only [missPopulate, hstep]
    split
    · rfl
    · split <;> rfl
  · simp only [missPopulate, hstep]

/-- Operations recorded before entering the miss path survive in the
final trace. -/
theorem missPopulate_ops_mem (cfg : Config)
    (nxt : Resp → Resp × Option String) (mgr : Manager) (ts : Nat)
    (key : String) (e : Entry) (resp : Resp) (ops : List StoreOp)
    (op : StoreOp) (hop : op ∈ ops) :
    op ∈ (missPopulate cfg nxt mgr ts key e resp ops).ops := by
  rcases hstep : (nxt resp).2 with _ | msg
  · simp only [missPopulate, hstep]
    split
    · exact hop
    · split <;> exact List.mem_append_left _ hop
  · simp only [missPopulate, hstep]
    exact hop

/-- A miss path never tags the response hit, provided downstream
leaves the cache-status header alone and it was not already hit. -/
theorem missPopulate_header_ne_hit (cfg : Config)
    (nxt : Resp → Resp × Option String) (mgr : Manager) (ts : Nat)
    (key : String) (e : Entry) (resp : Resp) (ops : List StoreOp)
    (hnext : ((nxt resp).1).getHeader cfg.CacheHeader =
      resp.getHeader cfg.CacheHeader)
    (h0 : resp.getHeader cfg.CacheHeader ≠ some cacheHit) :
    (missPopulate cfg nxt mgr ts key e resp ops).resp.getHeader
      cfg.CacheHeader ≠ some cacheHit := by
  rcases hstep : (nxt resp).2 with _ | msg
  · simp only [missPopulate, hstep]
    split
    · rw [Resp.getHeader_setHeader_self]
      decide
    · split <;>
      · rw [Resp.getHeader_setHeader_self]
        decide
  · simp only [missPopulate, hstep]
    rw [hnext]
    exact h0

/-- A downstream error is propagated unchanged; nothing is stored. -/
theorem missPopulate_err (cfg : Config)
    (nxt : Resp → Resp × Option String) (mgr : Manager) (ts : Nat)
    (key : String) (e : Entry) (resp : Resp) (ops : List StoreOp)
    (msg : String) (h : (nxt resp).2 = some msg) :
    missPopulate cfg nxt mgr ts key e resp ops =
      ⟨mgr, (nxt resp).1, some msg, ops, true⟩ := by
  simp [missPopulate, h]

/-- A response hit by the exclusion predicate is tagged unreachable
and not stored. -/
theorem missPopulate_excluded (cfg : Config)
    (nxt : Resp → Resp × Option String) (mgr : Manager) (ts : Nat)
    (key : String) (e : Entry) (resp : Resp) (ops : List StoreOp)
    (p : Resp → Bool) (h : (nxt resp).2 = none)
    (hp : cfg.Next = some p) (hpt : p (nxt resp).1 = true) :
    missPopulate cfg nxt mgr ts key e resp ops =
      ⟨mgr, ((nxt resp).1).setHeader cfg.CacheHeader cacheUnreachable,
        none, ops, true⟩ := by
  simp [missPopulate, h, hp, hpt]

/-- Store path of a miss in memory-only mode. -/
theorem missPopulate_store_mem (cfg : Config)
    (nxt : Resp → Resp × Option String) (mgr : Manager) (ts : Nat)
    (key : String) (e : Entry) (resp : Resp) (ops : List StoreOp)
    (h : (nxt resp).2 = none)
    (hx : (match cfg.Next with
      | some p => p ((nxt resp).1) | none => false) = false)
    (hs : cfg.hasStorage = false) :
    missPopulate cfg nxt mgr ts key e resp ops =
      ⟨mgr.set key (storedEntry cfg ts (nxt resp).1 e) cfg.Expiration,
        ((nxt resp).1).setHeader cfg.CacheHeader cacheMiss, none,
        ops ++ [StoreOp.set key (storedEntry cfg ts (nxt resp).1 e)
          cfg.Expiration], true⟩ := by
  simp [missPopulate, h, hx, hs, storedEntry]

/-- Store path of a miss in external-storage mode: raw body first,
then the body-cleared metadata, then the pool release. -/
theorem missPopulate_store_ext (cfg : Config)
    (nxt : Resp → Resp × Option String) (mgr : Manager) (ts : Nat)
    (key : String) (e : Entry) (resp : Resp) (ops : List StoreOp)
    (h : (nxt resp).2 = none)
    (hx : (match cfg.Next with
      | some p => p ((nxt resp).1) | none => false) = false)
    (hs : cfg.hasStorage = true) :
    missPopulate cfg nxt mgr ts key e resp ops =
      ⟨(mgr.setRaw (key ++ "_body") (storedEntry cfg ts (nxt resp).1 e).body
          cfg.Expiration).set key
          { storedEntry cfg ts (nxt resp).1 e with body := "" }
          cfg.Expiration,
        ((nxt resp).1).setHeader cfg.CacheHeader cacheMiss, none,
        ops ++ [StoreOp.setRaw (key ++ "_body")
            (storedEntry cfg ts (nxt resp).1 e).body cfg.Expiration,
          StoreOp.set key
            { storedEntry cfg ts (nxt resp).1 e with body := "" }
            cfg.Expiration,
          StoreOp.release
            { storedEntry cfg ts (nxt resp).1 e with body := "" }],
        true⟩ := by
  simp [missPopulate, h, hx, hs, storedEntry]



/-- A request finding no valid entry always reaches downstream. -/
theorem cacheHandler_absent_nextCalled (cfg : Config)
    (nxt : Resp → Resp × Option String) (mgr : Manager) (ts : Nat)
    (req : Req) (resp : Resp)
    (h1 : req.method = "GET" ∨ req.method = "HEAD")
    (h2 : (mgr.get (keyOf cfg req)).exp = 0) :
    (cacheHandler cfg nxt mgr ts req resp).nextCalled = true := by
  rw [cacheHandler_absent cfg nxt mgr ts req resp h1 h2]
  exact missPopulate_nextCalled cfg nxt mgr ts (keyOf cfg req)
    (mgr.get (keyOf cfg req)) resp []

/-! ### Fixtures used by the concrete witnesses and counterexamples -/

/-- Downstream stage that leaves the response unchanged. -/
def nxtId : Resp → Resp × Option String := fun r => (r, none)

/-- Downstream stage that fails. -/
def nxtErr : Resp → Resp × Option String := fun r => (r, some "boom")

/-- Downstream stage producing a concrete response. -/
def nxtBody : Resp → Resp × Option String :=
  fun r => ({ r with status := 201, body := "hello", headers := setA (setA r.headers "Content-Type" "text/html") "X-Custom" "abc" }, none)

/-- A manager holding one valid entry under the default GET key. -/
def mgrHit : Manager :=
  ⟨[("/_GET", { body := "cached", status := 203, ctype := "text/css", exp := 10 })], []⟩

/-! ### Claims -/

/-- C5: for every request served as a hit (entry present with exp ≠ 0
and the clock value strictly below exp), the handler returns without
ever invoking the downstream stage. -/
theorem C5_hit_never_invokes_downstream (cfg : Config)
    (nxt : Resp → Resp × Option String) (mgr : Manager) (ts : Nat)
    (req : Req) (resp : Resp)
    (h1 : req.method = "GET" ∨ req.method = "HEAD")
    (h2 : (mgr.get (keyOf cfg req)).exp ≠ 0)
    (h3 : ts < (mgr.get (keyOf cfg req)).exp) :
    (cacheHandler cfg nxt mgr ts req resp).nextCalled = false := by
  rw [cacheHandler_hit cfg nxt mgr ts req resp h1 h2 h3]

/-- Witness for C5 at a concrete input: a valid entry for /_GET at
clock 5 with expiration 10 is served without downstream. -/
theorem C5_hit_never_invokes_downstream_witness :
    (cacheHandler {} nxtId mgrHit 5 {} {}).nextCalled = false :=
  C5_hit_never_invokes_downstream {} nxtId mgrHit 5 {} {}
    (Or.inl rfl) (by decide) (by decide)

/-- C4: for every eligible request that is not served from cache and
whose downstream stage returns an error, the handler returns exactly
that error, performs no set, setRaw or release, and leaves the
response exactly as downstream produced it. -/
theorem C4_downstream_error_propagated (cfg : Config)
    (nxt : Resp → Resp × Option String) (mgr : Manager) (ts : Nat)
    (req : Req) (resp : Resp) (msg : String)
    (h1 : req.method = "GET" ∨ req.method = "HEAD")
    (hmiss : ¬ ((mgr.get (keyOf cfg req)).exp ≠ 0 ∧
      ts < (mgr.get (keyOf cfg req)).exp))
    (herr : (nxt resp).2 = some msg) :
    (cacheHandler cfg nxt mgr ts req resp).err = some msg ∧
    (cacheHandler cfg nxt mgr ts req resp).resp = (nxt resp).1 ∧
    ∀ op ∈ (cacheHandler cfg nxt mgr ts req resp).ops,
      op.isWrite = false := by
  by_cases h2 : (mgr.get (keyOf cfg req)).exp = 0
  · rw [cacheHandler_absent cfg nxt mgr ts req resp h1 h2,
      missPopulate_err cfg nxt mgr ts _ _ resp [] msg herr]
    refine ⟨rfl, rfl, ?_⟩
    intro op hop
    exact absurd hop (List.not_mem_nil op)
  · have h3 : ts ≥ (mgr.get (keyOf cfg req)).exp := by
      rcases not_and.mp hmiss h2 |> not_lt.mp with h
      exact h
    rw [cacheHandler_expired cfg nxt mgr ts req resp h1 h2 h3]
    by_cases hs : cfg.hasStorage
    · rw [if_pos hs, missPopulate_err cfg nxt _ ts _ _ resp _ msg herr]
      refine ⟨rfl, rfl, ?_⟩
      intro op hop
      rcases List.mem_cons.mp hop with rfl | hop
      · rfl
      rcases List.mem_cons.mp hop with rfl | hop
      · rfl
      exact absurd hop (List.not_mem_nil op)
    · rw [if_neg hs, missPopulate_err cfg nxt _ ts _ _ resp _ msg herr]
      refine ⟨rfl, rfl, ?_⟩
      intro op hop
      rcases List.mem_cons.mp hop with rfl | hop
      · rfl
      exact absurd hop (List.not_mem_nil op)

/-- Witness for C4 at a concrete input: an absent key with a failing
downstream propagates the error with no writes. -/
theorem C4_downstream_error_propagated_witness :
    (cacheHandler {} nxtErr {} 0 {} {}).err = some "boom" ∧
    (cacheHandler {} nxtErr {} 0 {} {}).resp = (nxtErr {}).1 ∧
    ∀ op ∈ (cacheHandler {} nxtErr {} 0 {} {}).ops,
      op.isWrite = false :=
  C4_downstream_error_propagated {} nxtErr {} 0 {} {} "boom"
    (Or.inl rfl) (by decide) rfl

/-- C6: a lookup finding a stale entry (exp ≠ 0 and clock ≥ exp)
deletes it under its key (also the paired body key when external
storage is active) in that same lookup, then handles the request as a
miss: downstream is invoked and the response is never tagged hit
(assuming downstream leaves the cache-status header alone and it was
not already hit). -/
theorem C6_expired_deleted_and_missed (cfg : Config)
    (nxt : Resp → Resp × Option String) (mgr : Manager) (ts : Nat)
    (req : Req) (resp : Resp)
    (h1 : req.method = "GET" ∨ req.method = "HEAD")
    (h2 : (mgr.get (keyOf cfg req)).exp ≠ 0)
    (h3 : ts ≥ (mgr.get (keyOf cfg req)).exp)
    (hnext : ((nxt resp).1).getHeader cfg.CacheHeader =
      resp.getHeader cfg.CacheHeader)
    (h0 : resp.getHeader cfg.CacheHeader ≠ some cacheHit) :
    StoreOp.delete (keyOf cfg req) ∈
      (cacheHandler cfg nxt mgr ts req resp).ops ∧
    (cfg.hasStorage = true → StoreOp.delete (keyOf cfg req ++ "_body") ∈
      (cacheHandler cfg nxt mgr ts req resp).ops) ∧
    (cacheHandler cfg nxt mgr ts req resp).nextCalled = true ∧
    (cacheHandler cfg nxt mgr ts req resp).resp.getHeader
      cfg.CacheHeader ≠ some cacheHit := by
  rw [cacheHandler_expired cfg nxt mgr ts req resp h1 h2 h3]
  by_cases hs : cfg.hasStorage
  · rw [if_pos hs]
    refine ⟨?_, fun _ => ?_, ?_, ?_⟩
    · exact missPopulate_ops_mem _ _ _ _ _ _ _ _ _
        (List.mem_cons_self _ _)
    · exact missPopulate_ops_mem _ _ _ _ _ _ _ _ _
        (List.mem_cons_of_mem _ (List.mem_cons_self _ _))
    · exact missPopulate_nextCalled _ _ _ _ _ _ _ _
    · exact missPopulate_header_ne_hit _ _ _ _ _ _ _ _ hnext h0
  · rw [if_neg hs]
    refine ⟨?_, fun hcontra => absurd hcontra hs, ?_, ?_⟩
    · exact missPopulate_ops_mem _ _ _ _ _ _ _ _ _
        (List.mem_cons_self _ _)
    · exact missPopulate_nextCalled _ _ _ _ _ _ _ _
    · exact missPopulate_header_ne_hit _ _ _ _ _ _ _ _ hnext h0

/-- Witness for C6 at a concrete input: the /_GET entry with exp 10 is
deleted at clock 20 and the request goes downstream, not hit. -/
theorem C6_expired_deleted_and_missed_witness :
    StoreOp.delete (keyOf {} {}) ∈
      (cacheHandler {} nxtId mgrHit 20 {} {}).ops ∧
    (({} : Config).hasStorage = true →
      StoreOp.delete (keyOf {} {} ++ "_body") ∈
        (cacheHandler {} nxtId mgrHit 20 {} {}).ops) ∧
    (cacheHandler {} nxtId mgrHit 20 {} {}).nextCalled = true ∧
    (cacheHandler {} nxtId mgrHit 20 {} {}).resp.getHeader
      ({} : Config).CacheHeader ≠ some cacheHit :=
  C6_expired_deleted_and_missed {} nxtId mgrHit 20 {} {}
    (Or.inl rfl) (by decide) (by decide) rfl (by decide)

/-- Config with the exclusion predicate always firing. -/
def cfgNext : Config := { Next := some (fun _ => true) }

/-- Config with Cache-Control emission enabled. -/
def cfgCC : Config := { CacheControl := true }

/-- C9: for every eligible request not served from cache whose
produced response is hit by the exclusion predicate, the handler tags
the response unreachable, performs no set, setRaw or release, leaves
no valid entry under the key, and a later identical request is again
handled as a miss (downstream invoked). -/
theorem C9_excluded_unreachable_not_stored (cfg : Config)
    (nxt nxt2 : Resp → Resp × Option String) (mgr : Manager)
    (ts ts2 : Nat) (req : Req) (resp resp2 : Resp) (p : Resp → Bool)
    (h1 : req.method = "GET" ∨ req.method = "HEAD")
    (hmiss : ¬ ((mgr.get (keyOf cfg req)).exp ≠ 0 ∧
      ts < (mgr.get (keyOf cfg req)).exp))
    (hp : cfg.Next = some p)
    (hno : (nxt resp).2 = none)
    (hpt : p ((nxt resp).1) = true) :
    (cacheHandler cfg nxt mgr ts req resp).resp.getHeader cfg.CacheHeader
      = some cacheUnreachable ∧
    (∀ op ∈ (cacheHandler cfg nxt mgr ts req resp).ops,
      op.isWrite = false) ∧
    ((cacheHandler cfg nxt mgr ts req resp).mgr.get (keyOf cfg req)).exp
      = 0 ∧
    (cacheHandler cfg nxt2 (cacheHandler cfg nxt mgr ts req resp).mgr
      ts2 req resp2).nextCalled = true := by
  by_cases h2 : (mgr.get (keyOf cfg req)).exp = 0
  · rw [cacheHandler_absent cfg nxt mgr ts req resp h1 h2,
      missPopulate_excluded cfg nxt mgr ts _ _ resp [] p hno hp hpt]
    refine ⟨Resp.getHeader_setHeader_self _ _ _, ?_, h2,
      cacheHandler_absent_nextCalled cfg nxt2 mgr ts2 req resp2 h1 h2⟩
    intro op hop
    exact absurd hop (List.not_mem_nil op)
  · have h3 : ts ≥ (mgr.get (keyOf cfg req)).exp :=
      not_lt.mp (not_and.mp hmiss h2)
    rw [cacheHandler_expired cfg nxt mgr ts req resp h1 h2 h3]
    by_cases hs : cfg.hasStorage
    · rw [if_pos hs,
        missPopulate_excluded cfg nxt _ ts _ _ resp _ p hno hp hpt]
      have hdel : (((mgr.delete (keyOf cfg req)).delete
          (keyOf cfg req ++ "_body")).get (keyOf cfg req)).exp = 0 := by
        rw [Manager.get_delete_ne _ _ _ (ne_append_body _),
          Manager.get_delete_self]
      refine ⟨Resp.getHeader_setHeader_self _ _ _, ?_, hdel,
        cacheHandler_absent_nextCalled cfg nxt2 _ ts2 req resp2 h1 hdel⟩
      intro op hop
      rcases List.mem_cons.mp hop with rfl | hop
      · rfl
      rcases List.mem_cons.mp hop with rfl | hop
      · rfl
      exact absurd hop (List.not_mem_nil op)
    · rw [if_neg hs,
        missPopulate_excluded cfg nxt _ ts _ _ resp _ p hno hp hpt]
      have hdel : ((mgr.delete (keyOf cfg req)).get (keyOf cfg req)).exp
          = 0 := by
        rw [Manager.get_delete_self]
      refine ⟨Resp.getHeader_setHeader_self _ _ _, ?_, hdel,
        cacheHandler_absent_nextCalled cfg nxt2 _ ts2 req resp2 h1 hdel⟩
      intro op hop
      rcases List.mem_cons.mp hop with rfl | hop
      · rfl
      exact absurd hop (List.not_mem_nil op)

/-- Witness for C9 at a concrete input: an always-true exclusion
predicate yields unreachable, no writes and a second miss. -/
theorem C9_excluded_unreachable_not_stored_witness :
    (cacheHandler cfgNext nxtId {} 0 {} {}).resp.getHeader
      cfgNext.CacheHeader = some cacheUnreachable ∧
    (∀ op ∈ (cacheHandler cfgNext nxtId {} 0 {} {}).ops,
      op.isWrite = false) ∧
    ((cacheHandler cfgNext nxtId {} 0 {} {}).mgr.get
      (keyOf cfgNext {})).exp = 0 ∧
    (cacheHandler cfgNext nxtId (cacheHandler cfgNext nxtId {} 0 {} {}).mgr
      7 {} {}).nextCalled = true :=
  C9_excluded_unreachable_not_stored cfgNext nxtId nxtId {} 0 7 {} {} {}
    (fun _ => true) (Or.inl rfl) (by decide) rfl rfl rfl

/-- C7: when Cache-Control emission is enabled, a hit response carries
Cache-Control "public, max-age=" with max-age equal to exp minus the
clock value at serve time; under the hit precondition the uint64
subtraction is exact (no wraparound), the value is positive, and it is
non-increasing across repeated hits of the same entry as the clock
advances. -/
theorem C7_cache_control_max_age (cfg : Config)
    (nxt : Resp → Resp × Option String) (mgr : Manager)
    (ts1 ts2 : Nat) (req : Req) (resp1 resp2 : Resp)
    (h1 : req.method = "GET" ∨ req.method = "HEAD")
    (hcc : cfg.CacheControl = true)
    (hch : cfg.CacheHeader ≠ "Cache-Control")
    (h2 : (mgr.get (keyOf cfg req)).exp ≠ 0)
    (hW : (mgr.get (keyOf cfg req)).exp < W64)
    (h12 : ts1 ≤ ts2)
    (h3 : ts2 < (mgr.get (keyOf cfg req)).exp) :
    (cacheHandler cfg nxt mgr ts1 req resp1).resp.getHeader
      "Cache-Control" = some ("public, max-age=" ++
        toString ((mgr.get (keyOf cfg req)).exp - ts1)) ∧
    (cacheHandler cfg nxt (cacheHandler cfg nxt mgr ts1 req resp1).mgr
      ts2 req resp2).resp.getHeader "Cache-Control" =
      some ("public, max-age=" ++
        toString ((mgr.get (keyOf cfg req)).exp - ts2)) ∧
    u64sub (mgr.get (keyOf cfg req)).exp ts1 =
      (mgr.get (keyOf cfg req)).exp - ts1 ∧
    u64sub (mgr.get (keyOf cfg req)).exp ts2 =
      (mgr.get (keyOf cfg req)).exp - ts2 ∧
    0 < (mgr.get (keyOf cfg req)).exp - ts1 ∧
    0 < (mgr.get (keyOf cfg req)).exp - ts2 ∧
    (mgr.get (keyOf cfg req)).exp - ts2 ≤
      (mgr.get (keyOf cfg req)).exp - ts1 := by
  have hts1 : ts1 < (mgr.get (keyOf cfg req)).exp := lt_of_le_of_lt h12 h3
  have hu1 : u64sub (mgr.get (keyOf cfg req)).exp ts1 =
      (mgr.get (keyOf cfg req)).exp - ts1 :=
    u64sub_exact _ _ (le_of_lt hts1) hW
  have hu2 : u64sub (mgr.get (keyOf cfg req)).exp ts2 =
      (mgr.get (keyOf cfg req)).exp - ts2 :=
    u64sub_exact _ _ (le_of_lt h3) hW
  rw [cacheHandler_hit cfg nxt mgr ts1 req resp1 h1 h2 hts1]
  dsimp only
  refine ⟨?_, ?_, hu1, hu2, by omega, by omega, by omega⟩
  · rw [serveHit_cacheControl _ _ _ _ _ _ hcc hch, hu1]
  · rw [cacheHandler_hit cfg nxt mgr ts2 req resp2 h1 h2 h3]
    dsimp only
    rw [serveHit_cacheControl _ _ _ _ _ _ hcc hch, hu2]

/-- Witness for C7 at a concrete input: exp 10, hits at clocks 3 and
5 give max-age 7 then 5. -/
theorem C7_cache_control_max_age_witness :
    (cacheHandler cfgCC nxtId mgrHit 3 {} {}).resp.getHeader
      "Cache-Control" = some ("public, max-age=" ++
        toString ((mgrHit.get (keyOf cfgCC {})).exp - 3)) ∧
    (cacheHandler cfgCC nxtId (cacheHandler cfgCC nxtId mgrHit 3 {} {}).mgr
      5 {} {}).resp.getHeader "Cache-Control" =
      some ("public, max-age=" ++
        toString ((mgrHit.get (keyOf cfgCC {})).exp - 5)) ∧
    u64sub (mgrHit.get (keyOf cfgCC {})).exp 3 =
      (mgrHit.get (keyOf cfgCC {})).exp - 3 ∧
    u64sub (mgrHit.get (keyOf cfgCC {})).exp 5 =
      (mgrHit.get (keyOf cfgCC {})).exp - 5 ∧
    0 < (mgrHit.get (keyOf cfgCC {})).exp - 3 ∧
    0 < (mgrHit.get (keyOf cfgCC {})).exp - 5 ∧
    (mgrHit.get (keyOf cfgCC {})).exp - 5 ≤
      (mgrHit.get (keyOf cfgCC {})).exp - 3 :=
  C7_cache_control_max_age cfgCC nxtId mgrHit 3 5 {} {} {}
    (Or.inl rfl) rfl (by decide) (by decide) (by decide)
    (by decide) (by decide)

/-! ### storedEntry projections -/

theorem storedEntry_status (cfg : Config) (ts : Nat) (r : Resp)
    (e : Entry) : (storedEntry cfg ts r e).status = r.status := by
  by_cases h : cfg.StoreResponseHeaders <;>
    simp [storedEntry, populateEntry, h]

theorem storedEntry_body (cfg : Config) (ts : Nat) (r : Resp)
    (e : Entry) : (storedEntry cfg ts r e).body = r.body := by
  by_cases h : cfg.StoreResponseHeaders <;>
    simp [storedEntry, populateEntry, h]

theorem storedEntry_ctype (cfg : Config) (ts : Nat) (r : Resp)
    (e : Entry) : (storedEntry cfg ts r e).ctype = r.contentType := by
  by_cases h : cfg.StoreResponseHeaders <;>
    simp [storedEntry, populateEntry, h]

theorem storedEntry_exp (cfg : Config) (ts : Nat) (r : Resp)
    (e : Entry) : (storedEntry cfg ts r e).exp =
      (ts + expirationSeconds cfg r) % W64 := by
  by_cases h : cfg.StoreResponseHeaders <;>
    simp [storedEntry, populateEntry, h]

/-- The header snapshot of a committed entry never contains a header
of the ignore set, provided the borrowed entry carried no stale
snapshot. -/
theorem storedEntry_headers_not_ignored (cfg : Config) (ts : Nat)
    (r : Resp) (e : Entry) (he : e.headers = none) (hs : List (String × String))
    (hh : (storedEntry cfg ts r e).headers = some hs) :
    ∀ kv ∈ hs, ¬ ignoreHeaders.contains kv.1 = true := by
  by_cases h : cfg.StoreResponseHeaders
  · simp only [storedEntry, populateEntry, h, if_pos] at hh
    have hfil : hs = r.headers.filter
        (fun kv => decide (¬ ignoreHeaders.contains kv.1 = true)) := by
      have := (Option.some.inj hh).symm
      simpa using this
    intro kv hkv
    rw [hfil] at hkv
    have := (List.mem_filter.mp hkv).2
    exact of_decide_eq_true this
  · simp only [storedEntry, populateEntry, h, if_neg] at hh
    rw [he] at hh
    exact absurd hh (by simp)

/-- A header name outside the ignore set differs from Content-Type. -/
theorem not_ignored_ne_ct {k : String}
    (h : ¬ ignoreHeaders.contains k = true) : k ≠ "Content-Type" := by
  intro hk
  rw [hk] at h
  exact h (by decide)

/-- C1: an eligible request on a fresh key goes downstream, is tagged
miss and its produced response is stored; a second identical request
while the entry is unexpired is tagged hit and carries the same
status, body and content type as the first response. -/
theorem C1_miss_then_hit (cfg : Config)
    (nxt : Resp → Resp × Option String) (mgr : Manager)
    (ts1 ts2 : Nat) (req : Req) (resp1 resp2 : Resp)
    (h1 : req.method = "GET" ∨ req.method = "HEAD")
    (h2 : mgr.get (keyOf cfg req) = {})
    (hno : (nxt resp1).2 = none)
    (hnx : cfg.Next = none)
    (hch : cfg.CacheHeader ≠ "Content-Type")
    (h3 : ts2 < ((cacheHandler cfg nxt mgr ts1 req resp1).mgr.get
      (keyOf cfg req)).exp) :
    (cacheHandler cfg nxt mgr ts1 req resp1).nextCalled = true ∧
    (cacheHandler cfg nxt mgr ts1 req resp1).resp.getHeader
      cfg.CacheHeader = some cacheMiss ∧
    (∃ e t, StoreOp.set (keyOf cfg req) e t ∈
      (cacheHandler cfg nxt mgr ts1 req resp1).ops) ∧
    (cacheHandler cfg nxt (cacheHandler cfg nxt mgr ts1 req resp1).mgr
      ts2 req resp2).resp.getHeader cfg.CacheHeader = some cacheHit ∧
    (cacheHandler cfg nxt (cacheHandler cfg nxt mgr ts1 req resp1).mgr
      ts2 req resp2).resp.status =
      (cacheHandler cfg nxt mgr ts1 req resp1).resp.status ∧
    (cacheHandler cfg nxt (cacheHandler cfg nxt mgr ts1 req resp1).mgr
      ts2 req resp2).resp.body =
      (cacheHandler cfg nxt mgr ts1 req resp1).resp.body ∧
    (cacheHandler cfg nxt (cacheHandler cfg nxt mgr ts1 req resp1).mgr
      ts2 req resp2).resp.contentType =
      (cacheHandler cfg nxt mgr ts1 req resp1).resp.contentType := by
  have h2e : (mgr.get (keyOf cfg req)).exp = 0 := by rw [h2]
  have hx : (match cfg.Next with
      | some p => p ((nxt resp1).1) | none => false) = false := by
    rw [hnx]
  have habs := cacheHandler_absent cfg nxt mgr ts1 req resp1 h1 h2e
  by_cases hs : cfg.hasStorage
  · rw [habs, missPopulate_store_ext cfg nxt mgr ts1 _ _ resp1 []
      hno hx hs] at h3 ⊢
    dsimp only at h3 ⊢
    rw [Manager.get_set_self] at h3
    have hexp0 : ts2 < (storedEntry cfg ts1 (nxt resp1).1
        (mgr.get (keyOf cfg req))).exp := h3
    have hne : ({ storedEntry cfg ts1 (nxt resp1).1
        (mgr.get (keyOf cfg req)) with body := "" } : Entry).exp ≠ 0 := by
      show (storedEntry cfg ts1 (nxt resp1).1
        (mgr.get (keyOf cfg req))).exp ≠ 0
      omega
    have h3s : ts2 < (((mgr.setRaw (keyOf cfg req ++ "_body")
        (storedEntry cfg ts1 (nxt resp1).1
          (mgr.get (keyOf cfg req))).body cfg.Expiration).set
        (keyOf cfg req) { storedEntry cfg ts1 (nxt resp1).1
          (mgr.get (keyOf cfg req)) with body := "" }
        cfg.Expiration).get (keyOf cfg req)).exp := by
      rw [Manager.get_set_self]
      exact h3
    have hne2 : (((mgr.setRaw (keyOf cfg req ++ "_body")
        (storedEntry cfg ts1 (nxt resp1).1
          (mgr.get (keyOf cfg req))).body cfg.Expiration).set
        (keyOf cfg req) { storedEntry cfg ts1 (nxt resp1).1
          (mgr.get (keyOf cfg req)) with body := "" }
        cfg.Expiration).get (keyOf cfg req)).exp ≠ 0 := by
      rw [Manager.get_set_self]
      exact hne
    rw [cacheHandler_hit cfg nxt _ ts2 req resp2 h1 hne2 h3s]
    dsimp only
    rw [Manager.get_set_self]
    refine ⟨rfl, Resp.getHeader_setHeader_self _ _ _,
      ⟨{ storedEntry cfg ts1 (nxt resp1).1 (mgr.get (keyOf cfg req)) with
          body := "" }, cfg.Expiration, by simp⟩,
      serveHit_cacheHeader _ _ _ _ _ _, ?_, ?_, ?_⟩
    · rw [serveHit_status, Resp.status_setHeader]
      exact storedEntry_status cfg ts1 (nxt resp1).1 _
    · rw [serveHit_body_ext _ _ _ _ _ _ hs, Manager.getRaw_set,
        Manager.getRaw_setRaw_self, Resp.body_setHeader]
      exact storedEntry_body cfg ts1 (nxt resp1).1 _
    · rw [serveHit_contentType _ _ _ _ _ _ hch ?hhd,
        Resp.contentType_setHeader _ _ _ hch]
      · exact storedEntry_ctype cfg ts1 (nxt resp1).1 _
      case hhd =>
        intro hsl hh kv hkv
        have hhe : (storedEntry cfg ts1 (nxt resp1).1
            (mgr.get (keyOf cfg req))).headers = some hsl := hh
        exact not_ignored_ne_ct
          (storedEntry_headers_not_ignored cfg ts1 (nxt resp1).1 _
            (by rw [h2]) hsl hhe kv hkv)
  · have hsf : cfg.hasStorage = false := by
      simpa using hs
    rw [habs, missPopulate_store_mem cfg nxt mgr ts1 _ _ resp1 []
      hno hx hsf] at h3 ⊢
    dsimp only at h3 ⊢
    rw [Manager.get_set_self] at h3
    have hne : (storedEntry cfg ts1 (nxt resp1).1
        (mgr.get (keyOf cfg req))).exp ≠ 0 := by omega
    have h3s : ts2 < ((mgr.set (keyOf cfg req)
        (storedEntry cfg ts1 (nxt resp1).1 (mgr.get (keyOf cfg req)))
        cfg.Expiration).get (keyOf cfg req)).exp := by
      rw [Manager.get_set_self]
      exact h3
    have hne2 : ((mgr.set (keyOf cfg req)
        (storedEntry cfg ts1 (nxt resp1).1 (mgr.get (keyOf cfg req)))
        cfg.Expiration).get (keyOf cfg req)).exp ≠ 0 := by
      rw [Manager.get_set_self]
      exact hne
    rw [cacheHandler_hit cfg nxt _ ts2 req resp2 h1 hne2 h3s]
    dsimp only
    rw [Manager.get_set_self]
    refine ⟨rfl, Resp.getHeader_setHeader_self _ _ _,
      ⟨storedEntry cfg ts1 (nxt resp1).1 (mgr.get (keyOf cfg req)),
        cfg.Expiration, by simp⟩,
      serveHit_cacheHeader _ _ _ _ _ _, ?_, ?_, ?_⟩
    · rw [serveHit_status, Resp.status_setHeader]
      exact storedEntry_status cfg ts1 (nxt resp1).1 _
    · rw [serveHit_body_mem _ _ _ _ _ _ hsf, Resp.body_setHeader]
      exact storedEntry_body cfg ts1 (nxt resp1).1 _
    · rw [serveHit_contentType _ _ _ _ _ _ hch ?hhd2,
        Resp.contentType_setHeader _ _ _ hch]
      · exact storedEntry_ctype cfg ts1 (nxt resp1).1 _
      case hhd2 =>
        intro hsl hh kv hkv
        exact not_ignored_ne_ct
          (storedEntry_headers_not_ignored cfg ts1 (nxt resp1).1 _
            (by rw [h2]) hsl hh kv hkv)

/-- Witness for C1 at a concrete input: a fresh key at clock 100 with
default expiration 60 misses and stores; the identical request at
clock 150 hits with the same status, body and content type. -/
theorem C1_miss_then_hit_witness :
    (cacheHandler {} nxtBody {} 100 {} {}).nextCalled = true ∧
    (cacheHandler {} nxtBody {} 100 {} {}).resp.getHeader
      ({} : Config).CacheHeader = some cacheMiss ∧
    (∃ e t, StoreOp.set (keyOf {} {}) e t ∈
      (cacheHandler {} nxtBody {} 100 {} {}).ops) ∧
    (cacheHandler {} nxtBody (cacheHandler {} nxtBody {} 100 {} {}).mgr
      150 {} {}).resp.getHeader ({} : Config).CacheHeader =
      some cacheHit ∧
    (cacheHandler {} nxtBody (cacheHandler {} nxtBody {} 100 {} {}).mgr
      150 {} {}).resp.status =
      (cacheHandler {} nxtBody {} 100 {} {}).resp.status ∧
    (cacheHandler {} nxtBody (cacheHandler {} nxtBody {} 100 {} {}).mgr
      150 {} {}).resp.body =
      (cacheHandler {} nxtBody {} 100 {} {}).resp.body ∧
    (cacheHandler {} nxtBody (cacheHandler {} nxtBody {} 100 {} {}).mgr
      150 {} {}).resp.contentType =
      (cacheHandler {} nxtBody {} 100 {} {}).resp.contentType :=
  C1_miss_then_hit {} nxtBody {} 100 150 {} {} {}
    (Or.inl rfl) (by decide) rfl rfl (by decide) (by decide)

/-- Folding header replay over a list with distinct names yields each
replayed binding. -/
theorem foldl_setHeader_mem_nodup (k v : String) :
    ∀ (hs : List (String × String)) (r : Resp),
      (hs.map Prod.fst).Nodup → (k, v) ∈ hs →
      (hs.foldl (fun (r : Resp) (kv : String × String) =>
        r.setHeader kv.1 kv.2) r).getHeader k = some v := by
  intro hs
  induction hs with
  | nil =>
    intro r _ hkv
    exact absurd hkv (List.not_mem_nil _)
  | cons hd t ih =>
    obtain ⟨k0, v0⟩ := hd
    intro r hnd hkv
    rw [List.map_cons, List.nodup_cons] at hnd
    simp only [List.foldl_cons]
    rcases List.mem_cons.mp hkv with heq | hmem
    · injection heq with hk hv
      subst hk
      subst hv
      rw [foldl_setHeader_not_mem t _ k ?hnm,
        Resp.getHeader_setHeader_self]
      case hnm =>
        intro kv hkvt hc
        apply hnd.1
        rw [← hc]
        exact List.mem_map.mpr ⟨kv, hkvt, rfl⟩
    · exact ih (r.setHeader k0 v0) hnd.2 hmem

/-- A preserved header of the snapshot is set on the hit response. -/
theorem serveHit_preserved_header (cfg : Config) (mgr : Manager)
    (ts : Nat) (key : String) (e : Entry) (resp : Resp)
    (k v : String) (hs : List (String × String))
    (hh : e.headers = some hs)
    (hnd : (hs.map Prod.fst).Nodup)
    (hkv : (k, v) ∈ hs)
    (hkch : k ≠ cfg.CacheHeader)
    (hkcc : cfg.CacheControl = true → k ≠ "Cache-Control") :
    (serveHit cfg mgr ts key e resp).getHeader k = some v := by
  by_cases hcc : cfg.CacheControl
  · by_cases hst : cfg.hasStorage <;>
      by_cases hce : e.cencoding = "" <;>
        simp [serveHit, hst, hcc, hce, hh,
          Resp.getHeader_setHeader_ne _ _ _ _ hkch,
          Resp.getHeader_setHeader_ne _ _ _ _ (hkcc hcc),
          foldl_setHeader_mem_nodup k v hs _ hnd hkv]
  · by_cases hst : cfg.hasStorage <;>
      by_cases hce : e.cencoding = "" <;>
        simp [serveHit, hst, hcc, hce, hh,
          Resp.getHeader_setHeader_ne _ _ _ _ hkch,
          foldl_setHeader_mem_nodup k v hs _ hnd hkv]

/-- The header snapshot committed when StoreResponseHeaders is on. -/
theorem storedEntry_headers_of_store (cfg : Config) (ts : Nat)
    (r : Resp) (e : Entry) (hsr : cfg.StoreResponseHeaders = true) :
    (storedEntry cfg ts r e).headers = some (r.headers.filter
      (fun kv => decide (¬ ignoreHeaders.contains kv.1 = true))) := by
  simp [storedEntry, populateEntry, hsr]

/-- Config with response-header preservation on. -/
def cfgSRH : Config := { StoreResponseHeaders := true }

/-- Downstream stage that sets a response header named like the
default cache-status header. -/
def nxtShadow : Resp → Resp × Option String :=
  fun r => ({ r with status := 201, body := "b", headers := setA r.headers "X-Cache" "custom" }, none)

/-- Counterexample to C8 as stated: the header X-Cache is outside the
ignore set, so a downstream X-Cache: custom is snapshotted into the
entry map, yet the subsequent hit carries X-Cache: hit — the replayed
value is overwritten by the cache-status tag written afterwards
(cache.go lines 112-123), so it is not set on the hit response. -/
theorem C8_counterexample_shadowed :
    ignoreHeaders.contains "X-Cache" = false ∧
    ((cacheHandler cfgSRH nxtShadow {} 100 {} {}).mgr.get
      (keyOf cfgSRH {})).headers = some [("X-Cache", "custom")] ∧
    (cacheHandler cfgSRH nxtShadow
      (cacheHandler cfgSRH nxtShadow {} 100 {} {}).mgr
      150 {} {}).resp.getHeader "X-Cache" = some cacheHit ∧
    cacheHit ≠ "custom" := by
  decide

/-- C8 amended: with response-header preservation enabled, a
downstream header outside the ignore set is snapshotted into the
stored entry (in either storage mode, and the snapshot holds nothing
from the ignore set), and is set on the response of a subsequent hit
unless the hit path itself overwrites it afterwards: a header named
cfg.CacheHeader, or named Cache-Control when cache-control emission is
enabled. -/
theorem C8_amended_header_preservation (cfg : Config)
    (nxt : Resp → Resp × Option String) (mgr : Manager)
    (ts1 ts2 : Nat) (req : Req) (resp1 resp2 : Resp) (k v : String)
    (h1 : req.method = "GET" ∨ req.method = "HEAD")
    (h2 : mgr.get (keyOf cfg req) = {})
    (hno : (nxt resp1).2 = none)
    (hnx : cfg.Next = none)
    (hsr : cfg.StoreResponseHeaders = true)
    (h3 : ts2 < ((cacheHandler cfg nxt mgr ts1 req resp1).mgr.get
      (keyOf cfg req)).exp)
    (hnd : (((nxt resp1).1).headers.map Prod.fst).Nodup)
    (hkv : (k, v) ∈ ((nxt resp1).1).headers)
    (hki : ¬ ignoreHeaders.contains k = true)
    (hkch : k ≠ cfg.CacheHeader)
    (hkcc : cfg.CacheControl = true → k ≠ "Cache-Control") :
    (∃ hs, ((cacheHandler cfg nxt mgr ts1 req resp1).mgr.get
        (keyOf cfg req)).headers = some hs ∧ (k, v) ∈ hs ∧
      ∀ kv2 ∈ hs, ¬ ignoreHeaders.contains kv2.1 = true) ∧
    (cacheHandler cfg nxt (cacheHandler cfg nxt mgr ts1 req resp1).mgr
      ts2 req resp2).resp.getHeader k = some v := by
  have h2e : (mgr.get (keyOf cfg req)).exp = 0 := by rw [h2]
  have hx : (match cfg.Next with
      | some p => p ((nxt resp1).1) | none => false) = false := by
    rw [hnx]
  have habs := cacheHandler_absent cfg nxt mgr ts1 req resp1 h1 h2e
  have hmemf : (k, v) ∈ ((nxt resp1).1).headers.filter
      (fun kv => decide (¬ ignoreHeaders.contains kv.1 = true)) :=
    List.mem_filter.mpr ⟨hkv, decide_eq_true hki⟩
  have hndf : ((((nxt resp1).1).headers.filter
      (fun kv => decide (¬ ignoreHeaders.contains kv.1 = true))).map
        Prod.fst).Nodup :=
    List.Nodup.sublist
      (List.Sublist.map Prod.fst (List.filter_sublist _)) hnd
  by_cases hs : cfg.hasStorage
  · rw [habs, missPopulate_store_ext cfg nxt mgr ts1 _ _ resp1 []
      hno hx hs] at h3 ⊢
    dsimp only at h3 ⊢
    rw [Manager.get_set_self] at h3 ⊢
    have hexp0 : ts2 < (storedEntry cfg ts1 (nxt resp1).1
        (mgr.get (keyOf cfg req))).exp := h3
    have hne : ({ storedEntry cfg ts1 (nxt resp1).1
        (mgr.get (keyOf cfg req)) with body := "" } : Entry).exp ≠ 0 := by
      show (storedEntry cfg ts1 (nxt resp1).1
        (mgr.get (keyOf cfg req))).exp ≠ 0
      omega
    have h3s : ts2 < (((mgr.setRaw (keyOf cfg req ++ "_body")
        (storedEntry cfg ts1 (nxt resp1).1
          (mgr.get (keyOf cfg req))).body cfg.Expiration).set
        (keyOf cfg req) { storedEntry cfg ts1 (nxt resp1).1
          (mgr.get (keyOf cfg req)) with body := "" }
        cfg.Expiration).get (keyOf cfg req)).exp := by
      rw [Manager.get_set_self]
      exact h3
    have hne2 : (((mgr.setRaw (keyOf cfg req ++ "_body")
        (storedEntry cfg ts1 (nxt resp1).1
          (mgr.get (keyOf cfg req))).body cfg.Expiration).set
        (keyOf cfg req) { storedEntry cfg ts1 (nxt resp1).1
          (mgr.get (keyOf cfg req)) with body := "" }
        cfg.Expiration).get (keyOf cfg req)).exp ≠ 0 := by
      rw [Manager.get_set_self]
      exact hne
    have hh2 : ({ storedEntry cfg ts1 (nxt resp1).1
        (mgr.get (keyOf cfg req)) with body := "" } : Entry).headers =
        some (((nxt resp1).1).headers.filter
          (fun kv => decide (¬ ignoreHeaders.contains kv.1 = true))) :=
      storedEntry_headers_of_store cfg ts1 (nxt resp1).1 _ hsr
    refine ⟨⟨((nxt resp1).1).headers.filter
        (fun kv => decide (¬ ignoreHeaders.contains kv.1 = true)),
      hh2, hmemf, ?_⟩, ?_⟩
    · intro kv2 hkv2
      exact of_decide_eq_true (List.mem_filter.mp hkv2).2
    · rw [cacheHandler_hit cfg nxt _ ts2 req resp2 h1 hne2 h3s]
      dsimp only
      rw [Manager.get_set_self]
      exact serveHit_preserved_header cfg _ ts2 _ _ resp2 k v _
        hh2 hndf hmemf hkch hkcc
  · have hsf : cfg.hasStorage = false := by
      simpa using hs
    rw [habs, missPopulate_store_mem cfg nxt mgr ts1 _ _ resp1 []
      hno hx hsf] at h3 ⊢
    dsimp only at h3 ⊢
    rw [Manager.get_set_self] at h3 ⊢
    have hne : (storedEntry cfg ts1 (nxt resp1).1
        (mgr.get (keyOf cfg req))).exp ≠ 0 := by omega
    have h3s : ts2 < ((mgr.set (keyOf cfg req)
        (storedEntry cfg ts1 (nxt resp1).1 (mgr.get (keyOf cfg req)))
        cfg.Expiration).get (keyOf cfg req)).exp := by
      rw [Manager.get_set_self]
      exact h3
    have hne2 : ((mgr.set (keyOf cfg req)
        (storedEntry cfg ts1 (nxt resp1).1 (mgr.get (keyOf cfg req)))
        cfg.Expiration).get (keyOf cfg req)).exp ≠ 0 := by
      rw [Manager.get_set_self]
      exact hne
    refine ⟨⟨((nxt resp1).1).headers.filter
        (fun kv => decide (¬ ignoreHeaders.contains kv.1 = true)),
      storedEntry_headers_of_store cfg ts1 (nxt resp1).1 _ hsr, hmemf,
      ?_⟩, ?_⟩
    · intro kv2 hkv2
      exact of_decide_eq_true (List.mem_filter.mp hkv2).2
    · rw [cacheHandler_hit cfg nxt _ ts2 req resp2 h1 hne2 h3s]
      dsimp only
      rw [Manager.get_set_self]
      exact serveHit_preserved_header cfg _ ts2 _ _ resp2 k v _
        (storedEntry_headers_of_store cfg ts1 (nxt resp1).1 _ hsr)
        hndf hmemf hkch hkcc

/-- Witness for the amended C8 at a concrete input: the custom header
X-Custom set downstream is stored and replayed on the hit; the
snapshot holds no ignored header. -/
theorem C8_amended_header_preservation_witness :
    (∃ hs, ((cacheHandler cfgSRH nxtBody {} 100 {} {}).mgr.get
        (keyOf cfgSRH {})).headers = some hs ∧ ("X-Custom", "abc") ∈ hs ∧
      ∀ kv2 ∈ hs, ¬ ignoreHeaders.contains kv2.1 = true) ∧
    (cacheHandler cfgSRH nxtBody
      (cacheHandler cfgSRH nxtBody {} 100 {} {}).mgr
      150 {} {}).resp.getHeader "X-Custom" = some "abc" :=
  C8_amended_header_preservation cfgSRH nxtBody {} 100 150 {} {} {}
    "X-Custom" "abc"
    (Or.inl rfl) (by decide) rfl rfl rfl (by decide) (by decide)
    (by decide) (by decide) (by decide) (by decide)

/-- Every miss path with an error-free downstream tags the response
unreachable or miss. -/
theorem missPopulate_header_tagged (cfg : Config)
    (nxt : Resp → Resp × Option String) (mgr : Manager) (ts : Nat)
    (key : String) (e : Entry) (resp : Resp) (ops : List StoreOp)
    (h : (nxt resp).2 = none) :
    (missPopulate cfg nxt mgr ts key e resp ops).resp.getHeader
      cfg.CacheHeader = some cacheUnreachable ∨
    (missPopulate cfg nxt mgr ts key e resp ops).resp.getHeader
      cfg.CacheHeader = some cacheMiss := by
  simp only [missPopulate, h]
  split
  · exact Or.inl (Resp.getHeader_setHeader_self _ _ _)
  · split <;> exact Or.inr (Resp.getHeader_setHeader_self _ _ _)

/-- Config with a negative configured expiration (disabled cache). -/
def cfgNeg : Config := { Expiration := -1 }

/-- Counterexample to C2 as stated: with a negative configured
expiration, New returns a pure passthrough handler; the processed
request carries no cache-status header at all, hence none of the
three values. -/
theorem C2_counterexample_no_header :
    (runNew cfgNeg nxtId {} 0 {} {}).resp.getHeader cfgNeg.CacheHeader
      = none ∧
    ¬ ((runNew cfgNeg nxtId {} 0 {} {}).resp.getHeader cfgNeg.CacheHeader
        = some cacheUnreachable ∨
      (runNew cfgNeg nxtId {} 0 {} {}).resp.getHeader cfgNeg.CacheHeader
        = some cacheHit ∨
      (runNew cfgNeg nxtId {} 0 {} {}).resp.getHeader cfgNeg.CacheHeader
        = some cacheMiss) := by
  decide

/-- C2 amended: provided the configured expiration is non-negative
(the handler is not the disabled passthrough), downstream leaves the
cache-status header alone, and — when the request is eligible (GET or
HEAD) — downstream completes without an error, the handler sets the
cache-status header to exactly one of unreachable, hit or miss.  An
ineligible request is tagged unreachable even when its downstream
stage errors, since the tag is written before c.Next runs. -/
theorem C2_amended_always_tagged (cfg : Config)
    (nxt : Resp → Resp × Option String) (mgr : Manager) (ts : Nat)
    (req : Req) (resp : Resp)
    (hexp : 0 ≤ cfg.Expiration)
    (hnext : ∀ r : Resp, ((nxt r).1).getHeader cfg.CacheHeader =
      r.getHeader cfg.CacheHeader)
    (herr : req.method = "GET" ∨ req.method = "HEAD" →
      (runNew cfg nxt mgr ts req resp).err = none) :
    (runNew cfg nxt mgr ts req resp).resp.getHeader cfg.CacheHeader
      = some cacheUnreachable ∨
    (runNew cfg nxt mgr ts req resp).resp.getHeader cfg.CacheHeader
      = some cacheHit ∨
    (runNew cfg nxt mgr ts req resp).resp.getHeader cfg.CacheHeader
      = some cacheMiss := by
  have hpos : ¬ cfg.Expiration < 0 := not_lt.mpr hexp
  rw [runNew, if_neg hpos] at herr ⊢
  by_cases hm : req.method ≠ "GET" ∧ req.method ≠ "HEAD"
  · rw [cacheHandler_ineligible cfg nxt mgr ts req resp hm]
    dsimp only
    left
    rw [hnext]
    exact Resp.getHeader_setHeader_self _ _ _
  · have h1 : req.method = "GET" ∨ req.method = "HEAD" := by
      by_cases hg : req.method = "GET"
      · exact Or.inl hg
      by_cases hh : req.method = "HEAD"
      · exact Or.inr hh
      exact absurd ⟨hg, hh⟩ hm
    have herr2 : (cacheHandler cfg nxt mgr ts req resp).err = none :=
      herr h1
    by_cases hhit : (mgr.get (keyOf cfg req)).exp ≠ 0 ∧
        ts < (mgr.get (keyOf cfg req)).exp
    · rw [cacheHandler_hit cfg nxt mgr ts req resp h1 hhit.1 hhit.2]
      exact Or.inr (Or.inl (serveHit_cacheHeader _ _ _ _ _ _))
    · rcases hstep : (nxt resp).2 with _ | msg
      · by_cases h2 : (mgr.get (keyOf cfg req)).exp = 0
        · rw [cacheHandler_absent cfg nxt mgr ts req resp h1 h2]
          rcases missPopulate_header_tagged cfg nxt mgr ts _ _ resp []
            hstep with hu | hmiss
          · exact Or.inl hu
          · exact Or.inr (Or.inr hmiss)
        · have h3 : ts ≥ (mgr.get (keyOf cfg req)).exp := by
            rcases not_and_or.mp hhit with hc | hc
            · exact absurd h2 (by simpa using hc)
            · exact not_lt.mp hc
          rw [cacheHandler_expired cfg nxt mgr ts req resp h1 h2 h3]
          by_cases hs : cfg.hasStorage
          · rw [if_pos hs]
            rcases missPopulate_header_tagged cfg nxt _ ts _ _ resp _
              hstep with hu | hmiss
            · exact Or.inl hu
            · exact Or.inr (Or.inr hmiss)
          · rw [if_neg hs]
            rcases missPopulate_header_tagged cfg nxt _ ts _ _ resp _
              hstep with hu | hmiss
            · exact Or.inl hu
            · exact Or.inr (Or.inr hmiss)
      · exfalso
        by_cases h2 : (mgr.get (keyOf cfg req)).exp = 0
        · rw [cacheHandler_absent cfg nxt mgr ts req resp h1 h2,
            missPopulate_err cfg nxt mgr ts _ _ resp [] msg hstep]
            at herr2
          exact absurd herr2 (by simp)
        · have h3 : ts ≥ (mgr.get (keyOf cfg req)).exp := by
            rcases not_and_or.mp hhit with hc | hc
            · exact absurd h2 (by simpa using hc)
            · exact not_lt.mp hc
          rw [cacheHandler_expired cfg nxt mgr ts req resp h1 h2 h3]
            at herr2
          by_cases hs : cfg.hasStorage
          · rw [if_pos hs, missPopulate_err cfg nxt _ ts _ _ resp _ msg
              hstep] at herr2
            exact absurd herr2 (by simp)
          · rw [if_neg hs, missPopulate_err cfg nxt _ ts _ _ resp _ msg
              hstep] at herr2
            exact absurd herr2 (by simp)

/-- Witness for the amended C2 at a concrete input: a default config
on a fresh key tags the response (with miss). -/
theorem C2_amended_always_tagged_witness :
    (runNew {} nxtId {} 0 {} {}).resp.getHeader ({} : Config).CacheHeader
      = some cacheUnreachable ∨
    (runNew {} nxtId {} 0 {} {}).resp.getHeader ({} : Config).CacheHeader
      = some cacheHit ∨
    (runNew {} nxtId {} 0 {} {}).resp.getHeader ({} : Config).CacheHeader
      = some cacheMiss :=
  C2_amended_always_tagged {} nxtId {} 0 {} {} (by decide)
    (fun _ => rfl) (fun _ => rfl)

/-- Config with external storage and a dynamic expiration generator
returning 99 seconds, default expiration 5 seconds. -/
def cfgGen : Config := { Expiration := 5, ExpirationGenerator := some (fun _ => 99), hasStorage := true }

/-- Counterexample to C3 as stated: with a dynamic generator returning
99 seconds and a configured default of 5 seconds, both storage writes
are passed ttl 5 (cfg.Expiration), not the response-specific 99; only
the entry exp field (100 + 99 = 199) reflects the dynamic value. -/
theorem C3_counterexample_ttl :
    (cacheHandler cfgGen nxtBody {} 100 {} {}).ops =
      [StoreOp.setRaw "/_GET_body" "hello" 5,
       StoreOp.set "/_GET" { body := "", ctype := "text/html", cencoding := "", status := 201, headers := none, exp := 199 } 5,
       StoreOp.release { body := "", ctype := "text/html", cencoding := "", status := 201, headers := none, exp := 199 }] ∧
    (5 : Int) ≠ 99 := by
  decide

/-- C3 amended: on the miss-populate path with external storage, the
body goes under the body-suffixed key and the metadata under the key,
both with the configured default Expiration as storage ttl (not the
dynamic ttl); the entry body is cleared in the persisted metadata and
the entry is released last; the dynamic expiration only enters exp. -/
theorem C3_amended_persist (cfg : Config)
    (nxt : Resp → Resp × Option String) (mgr : Manager) (ts : Nat)
    (req : Req) (resp : Resp)
    (h1 : req.method = "GET" ∨ req.method = "HEAD")
    (h2 : (mgr.get (keyOf cfg req)).exp = 0)
    (hno : (nxt resp).2 = none)
    (hnx : cfg.Next = none)
    (hs : cfg.hasStorage = true) :
    (cacheHandler cfg nxt mgr ts req resp).ops =
      [StoreOp.setRaw (keyOf cfg req ++ "_body")
        (storedEntry cfg ts (nxt resp).1
          (mgr.get (keyOf cfg req))).body cfg.Expiration,
       StoreOp.set (keyOf cfg req)
        { storedEntry cfg ts (nxt resp).1
            (mgr.get (keyOf cfg req)) with body := "" } cfg.Expiration,
       StoreOp.release { storedEntry cfg ts (nxt resp).1
          (mgr.get (keyOf cfg req)) with body := "" }] ∧
    (storedEntry cfg ts (nxt resp).1 (mgr.get (keyOf cfg req))).body =
      ((nxt resp).1).body ∧
    (storedEntry cfg ts (nxt resp).1 (mgr.get (keyOf cfg req))).exp =
      (ts + expirationSeconds cfg (nxt resp).1) % W64 := by
  have hx : (match cfg.Next with
      | some p => p ((nxt resp).1) | none => false) = false := by
    rw [hnx]
  rw [cacheHandler_absent cfg nxt mgr ts req resp h1 h2,
    missPopulate_store_ext cfg nxt mgr ts _ _ resp [] hno hx hs]
  exact ⟨by simp, storedEntry_body cfg ts (nxt resp).1 _,
    storedEntry_exp cfg ts (nxt resp).1 _⟩

/-- Witness for the amended C3 at a concrete input. -/
theorem C3_amended_persist_witness :
    (cacheHandler cfgGen nxtBody {} 100 {} {}).ops =
      [StoreOp.setRaw (keyOf cfgGen {} ++ "_body")
        (storedEntry cfgGen 100 (nxtBody {}).1
          (Manager.get {} (keyOf cfgGen {}))).body cfgGen.Expiration,
       StoreOp.set (keyOf cfgGen {})
        { storedEntry cfgGen 100 (nxtBody {}).1
            (Manager.get {} (keyOf cfgGen {})) with body := "" }
        cfgGen.Expiration,
       StoreOp.release { storedEntry cfgGen 100 (nxtBody {}).1
          (Manager.get {} (keyOf cfgGen {})) with body := "" }] ∧
    (storedEntry cfgGen 100 (nxtBody {}).1
      (Manager.get {} (keyOf cfgGen {}))).body = ((nxtBody {}).1).body ∧
    (storedEntry cfgGen 100 (nxtBody {}).1
      (Manager.get {} (keyOf cfgGen {}))).exp =
      (100 + expirationSeconds cfgGen (nxtBody {}).1) % W64 :=
  C3_amended_persist cfgGen nxtBody {} 100 {} {}
    (Or.inl rfl) (by decide) rfl rfl rfl

/-- The uint64 conversion of a negative whole-seconds value wraps to
2^64 minus its magnitude. -/
theorem toUint64_neg (n : Nat) (h0 : 0 < n) (hn : n ≤ W64) :
    toUint64 (-(n : Int)) = W64 - n := by
  have hW : W64 = 18446744073709551616 := by norm_num [W64]
  unfold toUint64
  rw [hW] at hn ⊢
  have hcast : ((18446744073709551616 : Nat) : Int) =
      (18446744073709551616 : Int) := by norm_num
  rw [hcast]
  have h1 : (-(n : Int)).emod (18446744073709551616 : Int) =
      (18446744073709551616 : Int) - n := by
    show (-(n : Int)) % (18446744073709551616 : Int) =
      (18446744073709551616 : Int) - n
    conv_lhs => rw [show (-(n : Int)) = ((18446744073709551616 : Int) - n)
      + (18446744073709551616 : Int) * (-1) by ring]
    rw [Int.add_mul_emod_self_left]
    refine Int.emod_eq_of_lt ?_ ?_
    · omega
    · omega
  rw [h1]
  omega

/-- Config with a dynamic expiration generator returning -1 second. -/
def cfgNegGen : Config := { Expiration := 5, ExpirationGenerator := some (fun _ => -1) }

/-- Counterexample to C10 as stated: with a generator returning -1 at
clock 100, the stored exp is 99 (the wrap in exp = ts + expiration
cancels the enormous conversion), far from 2^64; the immediately
following identical request at clock 100 deletes the entry as expired
and is handled as a miss, not a hit. -/
theorem C10_counterexample_not_persistent_hit :
    ((cacheHandler cfgNegGen nxtBody {} 100 {} {}).mgr.get
      (keyOf cfgNegGen {})).exp = 99 ∧
    (99 : Nat) < 2 ^ 63 ∧
    (cacheHandler cfgNegGen nxtBody
      (cacheHandler cfgNegGen nxtBody {} 100 {} {}).mgr
      100 {} {}).nextCalled = true ∧
    (cacheHandler cfgNegGen nxtBody
      (cacheHandler cfgNegGen nxtBody {} 100 {} {}).mgr
      100 {} {}).resp.getHeader cfgNegGen.CacheHeader = some cacheMiss ∧
    StoreOp.delete (keyOf cfgNegGen {}) ∈
      (cacheHandler cfgNegGen nxtBody
        (cacheHandler cfgNegGen nxtBody {} 100 {} {}).mgr
        100 {} {}).ops := by
  decide

/-- C10 amended: a negative generated duration of magnitude n wraps to
2^64 - n in the uint64 conversion, but the uint64 addition
exp = ts + expiration wraps again, so for n < ts < 2^64 the stored
exp equals ts - n, a past timestamp; every subsequent lookup at clock
ts2 ≥ ts deletes the entry and proceeds as a miss (downstream
invoked), not as a perpetual hit. -/
theorem C10_amended_wraps_to_past (cfg : Config)
    (nxt nxt2 : Resp → Resp × Option String) (mgr : Manager)
    (ts ts2 : Nat) (req : Req) (resp resp2 : Resp) (g : Resp → Int)
    (n : Nat)
    (h1 : req.method = "GET" ∨ req.method = "HEAD")
    (h2 : (mgr.get (keyOf cfg req)).exp = 0)
    (hno : (nxt resp).2 = none)
    (hnx : cfg.Next = none)
    (hsf : cfg.hasStorage = false)
    (hg : cfg.ExpirationGenerator = some g)
    (hgn : g ((nxt resp).1) = -(n : Int))
    (hn0 : 0 < n) (hnts : n < ts) (hts : ts < W64)
    (hts2 : ts ≤ ts2) :
    expirationSeconds cfg ((nxt resp).1) = W64 - n ∧
    ((cacheHandler cfg nxt mgr ts req resp).mgr.get (keyOf cfg req)).exp
      = ts - n ∧
    (cacheHandler cfg nxt2 (cacheHandler cfg nxt mgr ts req resp).mgr
      ts2 req resp2).nextCalled = true ∧
    StoreOp.delete (keyOf cfg req) ∈
      (cacheHandler cfg nxt2 (cacheHandler cfg nxt mgr ts req resp).mgr
        ts2 req resp2).ops := by
  have hnW : n ≤ W64 := le_of_lt (lt_trans hnts hts)
  have hgen : expirationSeconds cfg ((nxt resp).1) = W64 - n := by
    simp only [expirationSeconds, hg, hgn]
    exact toUint64_neg n hn0 hnW
  have hx : (match cfg.Next with
      | some p => p ((nxt resp).1) | none => false) = false := by
    rw [hnx]
  rw [cacheHandler_absent cfg nxt mgr ts req resp h1 h2,
    missPopulate_store_mem cfg nxt mgr ts _ _ resp [] hno hx hsf]
  dsimp only
  have hexpv : (storedEntry cfg ts (nxt resp).1
      (mgr.get (keyOf cfg req))).exp = ts - n := by
    rw [storedEntry_exp, hgen]
    have hW : W64 = 18446744073709551616 := by norm_num [W64]
    rw [hW]
    rw [hW] at hts hnW
    omega
  have hne2 : ((mgr.set (keyOf cfg req)
      (storedEntry cfg ts (nxt resp).1 (mgr.get (keyOf cfg req)))
      cfg.Expiration).get (keyOf cfg req)).exp ≠ 0 := by
    rw [Manager.get_set_self, hexpv]
    omega
  have hge2 : ts2 ≥ ((mgr.set (keyOf cfg req)
      (storedEntry cfg ts (nxt resp).1 (mgr.get (keyOf cfg req)))
      cfg.Expiration).get (keyOf cfg req)).exp := by
    rw [Manager.get_set_self, hexpv]
    omega
  rw [cacheHandler_expired cfg nxt2 _ ts2 req resp2 h1 hne2 hge2,
    if_neg (by simp [hsf])]
  refine ⟨hgen, ?_, missPopulate_nextCalled _ _ _ _ _ _ _ _,
    missPopulate_ops_mem _ _ _ _ _ _ _ _ _ (List.mem_cons_self _ _)⟩
  rw [Manager.get_set_self]
  exact hexpv

/-- Witness for the amended C10 at a concrete input: generator -1 at
clock 100 stores exp 99 and the next lookup at clock 100 is a miss
with the entry deleted. -/
theorem C10_amended_wraps_to_past_witness :
    expirationSeconds cfgNegGen ((nxtBody {}).1) = W64 - 1 ∧
    ((cacheHandler cfgNegGen nxtBody {} 100 {} {}).mgr.get
      (keyOf cfgNegGen {})).exp = 100 - 1 ∧
    (cacheHandler cfgNegGen nxtBody
      (cacheHandler cfgNegGen nxtBody {} 100 {} {}).mgr
      100 {} {}).nextCalled = true ∧
    StoreOp.delete (keyOf cfgNegGen {}) ∈
      (cacheHandler cfgNegGen nxtBody
        (cacheHandler cfgNegGen nxtBody {} 100 {} {}).mgr
        100 {} {}).ops :=
  C10_amended_wraps_to_past cfgNegGen nxtBody nxtBody {} 100 100 {} {} {}
    (fun _ => -1) 1 (Or.inl rfl) (by decide) rfl rfl rfl rfl
    (by decide) (by decide) (by decide) (by decide) (by decide)
